import Mathlib

/-!
Verification of the WorkPal office-automation backend.

This file gives a shallow embedding, in Lean 4, of the core of the
WorkPal repository (an LLM-orchestrated office-automation backend):

* `app/services/excel_service.py` — the spreadsheet row store
  (`excel_read`, `_normalise_insert_values`, `excel_insert`,
  `excel_update`, `excel_delete`, `parse_simple_condition`);
* `app/routers/workpal.py` — the intent parser
  (`parse_intent_from_text`, `parse_intents_from_text`);
* `app/routers/intent.py` — the authority gate (`check_authority`) and
  the intent executor (`execute_intent`) with its
  auto-send-on-resignation cascade.

Modelling conventions:

* Python strings are Lean `String`s; `str.lower`/`str.upper` are
  modelled by the ASCII case maps `Char.toLower`/`Char.toUpper`
  (the repository only ever feeds ASCII action/department/marker text
  through these operations).
* Python values that can flow through an intent's untyped `VALUES`
  payload are modelled by the inductive `PyVal` (None, bool, int, str,
  list, dict with string keys — the payloads arrive from JSON request
  bodies, so dict keys are strings).  Floats do not appear in any
  behaviour the verified claims mention and are omitted.
* An Excel workbook is its cell content: a list of named sheets, each a
  list of rows of optional cell scalars.  `openpyxl.iter_rows` pads all
  rows of a sheet to the sheet's column count; the model applies the
  same padding.  Byte-level artefacts of the xlsx container (zip
  structure, the 512-byte minimum-size guard of `load_workbook_safe`)
  are below the granularity of the embedding: an existing modelled file
  is a loadable workbook.
* The filesystem is a partial map from path strings to workbooks; a
  save is a point update of that map.
* External collaborators that the executor calls but whose internals no
  claim depends on are oracle fields of `Env`: the SMTP sender
  (`send_email`), the pandas-based `lookup_email_by_name`, `json.loads`,
  and the relational stores (central rules, department rules and files,
  the `auto_send_on_resignation` flag of the latest central rule).
  Theorems quantify over all oracle behaviours, which includes the real
  ones.
* Exceptions are `Except` errors.  FastAPI `HTTPException`s carry their
  status code and detail; exceptions the executor does not catch
  (e.g. `InvalidExcelError`) are modelled as `HErr.uncaught`.
-/

namespace WorkPal

/-! ## Python string primitives -/

/-- Python `str.lower` (ASCII model): lower-case each character. -/
def pyLower (s : String) : String := String.mk (s.data.map Char.toLower)

/-- Python `str.upper` (ASCII model): upper-case each character. -/
def pyUpper (s : String) : String := String.mk (s.data.map Char.toUpper)

/-- Python's `\s` / `str.strip` whitespace set (ASCII model):
space, tab, newline, carriage return, vertical tab, form feed. -/
def pyIsSpace (c : Char) : Bool :=
  c = ' ' || c = '\t' || c = '\n' || c = '\r' || c = '\x0b' || c = '\x0c'

/-- Python `str.strip()`: drop leading and trailing whitespace. -/
def pyStrip (s : String) : String :=
  String.mk (((s.data.dropWhile pyIsSpace).reverse.dropWhile pyIsSpace).reverse)

/-- Python `str.strip(ch)` for a single character argument. -/
def pyStripChar (ch : Char) (s : String) : String :=
  String.mk (((s.data.dropWhile (fun c => c = ch)).reverse.dropWhile
    (fun c => c = ch)).reverse)

/-- Does the second list start with the first one? -/
def listStarts : List Char → List Char → Bool
  | [], _ => true
  | _ :: _, [] => false
  | p :: ps, c :: cs => p = c && listStarts ps cs

/-- Is `needle` a contiguous sublist of `hay`? (Python `in` on strings.) -/
def subIn (needle : List Char) : List Char → Bool
  | [] => needle.isEmpty
  | c :: rest => listStarts needle (c :: rest) || subIn needle rest

/-- Python `needle in hay` for strings. -/
def containsSub (needle hay : String) : Bool := subIn needle.data hay.data

/-- Text after the first occurrence of `marker` (Python
`text.split(marker, 1)[1]`); `none` when the marker does not occur. -/
def afterSub (marker : List Char) : List Char → Option (List Char)
  | [] => if marker.isEmpty then some [] else none
  | c :: rest =>
    if listStarts marker (c :: rest) then some (List.drop marker.length (c :: rest))
    else afterSub marker rest

/-- Split at the first occurrence of `sep` (Python `s.split(sep, 1)`),
returning the part before and the part after. -/
def splitFirstAux (sep : Char) (acc : List Char) : List Char → List Char × List Char
  | [] => (acc.reverse, [])
  | c :: rest => if c = sep then (acc.reverse, rest) else splitFirstAux sep (c :: acc) rest

/-- Split a string on every occurrence of `sep` (Python `s.split(sep)`):
always returns at least one part; `"".split(sep) = [""]`. -/
def splitAllAux (sep : Char) (acc : List Char) : List Char → List (List Char)
  | [] => [acc.reverse]
  | c :: rest =>
    if c = sep then acc.reverse :: splitAllAux sep [] rest
    else splitAllAux sep (c :: acc) rest

/-- Python `s.split(sep)` on strings. -/
def splitAllChar (sep : Char) (s : String) : List String :=
  (splitAllAux sep [] s.data).map String.mk

/-- Python `s.replace(pat, repl)` for a non-empty pattern: left-to-right,
non-overlapping.  The `Nat` argument is step fuel (one unit per consumed
character, so `s.length` always suffices). -/
def replaceFuel (pat repl : List Char) : Nat → List Char → List Char
  | 0, cs => cs
  | _ + 1, [] => []
  | fuel + 1, c :: rest =>
    if listStarts pat (c :: rest) then
      repl ++ replaceFuel pat repl fuel (List.drop (pat.length - 1) rest)
    else c :: replaceFuel pat repl fuel rest

/-- Python `s.replace(pat, repl)` (used with the non-empty pattern
`"{name}"` by the resignation cascade). -/
def pyReplace (s pat repl : String) : String :=
  String.mk (replaceFuel pat.data repl.data s.data.length s.data)

/-- Python truthiness of an optional string (`not x` for `x: Optional[str]`):
falsy iff `None` or empty. -/
def optStrFalsy (o : Option String) : Bool := o.getD "" = ""

/-! ## Python values (`Any` payloads) -/

/-- A Python value as it can appear in an intent's `VALUES` payload
(JSON-shaped: None, bool, int, str, list, dict with string keys). -/
inductive PyVal where
  | vnone
  | vbool (b : Bool)
  | vint (n : Int)
  | vstr (s : String)
  | vlist (xs : List PyVal)
  | vdict (kvs : List (String × PyVal))

mutual

/-- Python `repr` of a value (ASCII model; strings are quoted without
escaping, which is exact for quote-free ASCII strings). -/
def pyReprP : PyVal → String
  | .vnone => "None"
  | .vbool b => if b then "True" else "False"
  | .vint n => toString n
  | .vstr s => "'" ++ s ++ "'"
  | .vlist xs => "[" ++ pyReprList xs ++ "]"
  | .vdict kvs => "\x7b" ++ pyReprDict kvs ++ "\x7d"

/-- Comma-joined `repr`s of list elements. -/
def pyReprList : List PyVal → String
  | [] => ""
  | [x] => pyReprP x
  | x :: xs => pyReprP x ++ ", " ++ pyReprList xs

/-- Comma-joined `repr`s of dict items. -/
def pyReprDict : List (String × PyVal) → String
  | [] => ""
  | [(k, v)] => "'" ++ k ++ "': " ++ pyReprP v
  | (k, v) :: kvs => "'" ++ k ++ "': " ++ pyReprP v ++ ", " ++ pyReprDict kvs

end

/-- Python `str(v)`: like `repr` except on strings, which print bare. -/
def pyStrP : PyVal → String
  | .vstr s => s
  | v => pyReprP v

/-- Python truthiness of a value. -/
def pyTruthy : PyVal → Bool
  | .vnone => false
  | .vbool b => b
  | .vint n => n != 0
  | .vstr s => s != ""
  | .vlist xs => !xs.isEmpty
  | .vdict kvs => !kvs.isEmpty

/-- First value for an exactly-matching key in a dict (Python dicts have
unique keys, so the first match is the only one). -/
def lookupKey (kvs : List (String × PyVal)) (k : String) : Option PyVal :=
  (kvs.find? (fun kv => kv.1 == k)).map (fun kv => kv.2)

/-! ## Spreadsheet row store (`app/services/excel_service.py`) -/

/-- A scalar cell payload (what openpyxl stores and returns for the data
this system writes: strings, ints, bools). -/
inductive Scalar where
  | s (v : String)
  | i (n : Int)
  | b (v : Bool)
deriving DecidableEq

/-- A cell value: `none` is an empty cell (Python `None`). -/
abbrev CellV := Option Scalar

/-- A worksheet: a list of rows of cells.  Row 1 (the head) is the
header row. -/
abbrev Sheet := List (List CellV)

/-- A workbook: ordered named sheets (openpyxl guarantees at least one
sheet in any real workbook). -/
abbrev Workbook := List (String × Sheet)

/-- The filesystem: path → workbook for existing files. -/
abbrev Fs := String → Option Workbook

/-- Python `str(cell.value)` of a cell. -/
def pyStrC : CellV → String
  | none => "None"
  | some (.s v) => v
  | some (.i n) => toString n
  | some (.b v) => if v then "True" else "False"

/-- A cell value as the Python object `cell.value`. -/
def cellToPy : CellV → PyVal
  | none => .vnone
  | some (.s v) => .vstr v
  | some (.i n) => .vint n
  | some (.b v) => .vbool v

/-- Writing a Python value into a cell: scalars are accepted, lists and
dicts make openpyxl raise `ValueError` (modelled as `none`). -/
def toCellV : PyVal → Option CellV
  | .vnone => some none
  | .vbool b => some (some (.b b))
  | .vint n => some (some (.i n))
  | .vstr s => some (some (.s s))
  | .vlist _ => none
  | .vdict _ => none

/-- The sheet's column count: the maximum row length (openpyxl
`max_column` over the stored cells). -/
def sheetWidth (rows : Sheet) : Nat :=
  rows.foldr (fun r acc => max r.length acc) 0

/-- Pad a row with empty cells up to the sheet width, as
`openpyxl.iter_rows` does. -/
def padRow (w : Nat) (r : List CellV) : List CellV :=
  r ++ List.replicate (w - r.length) none

/-- The padded header row (`[cell.value for cell in header_row]` for the
first row yielded by `iter_rows(min_row=1, max_row=1)`); `[]` when the
sheet has no rows or no columns, which is exactly when the Python code
sees a falsy `header_row`. -/
def headersOf (sheet : Sheet) : List CellV :=
  match sheet with
  | [] => []
  | hr :: _ => padRow (sheetWidth sheet) hr

/-- Errors of the Excel service.  `invalidExcel` is `InvalidExcelError`,
which the executor's `except` clauses do not catch. -/
inductive ExcErr where
  | fileNotFound (msg : String)
  | valueErr (msg : String)
  | invalidExcel (msg : String)
deriving DecidableEq

/-- The final path component (after the last `/`). -/
def lastComponent (p : String) : String :=
  String.mk ((p.data.reverse.takeWhile (fun c => c ≠ '/')).reverse)

/-- `pathlib.Path(p).suffix`: the extension of the final component,
empty when there is no interior dot. -/
def pathSuffix (p : String) : String :=
  let name := (lastComponent p).data
  let pre := name.reverse.takeWhile (fun c => c ≠ '.')
  if pre.isEmpty || name.length ≤ pre.length + 1 then ""
  else String.mk ('.' :: pre.reverse)

/-- Is the path's lower-cased suffix a supported Excel extension? -/
def hasAllowedExt (p : String) : Bool :=
  [".xlsx", ".xlsm", ".xltx", ".xltm"].contains (pyLower (pathSuffix p))

/-- Model of `_ensure_excel_path`: the file must exist and carry a
supported extension (path resolution is the identity in the model). -/
def ensureExcelPath (fs : Fs) (path : String) : Except ExcErr Unit :=
  if (fs path).isNone then .error (.fileNotFound "Excel file not found")
  else if !hasAllowedExt path then
    .error (.valueErr "Only .xlsx/.xlsm/.xltx/.xltm Excel files are supported.")
  else .ok ()

/-- Model of `load_workbook_safe`: existence and extension checks wrapped
in `InvalidExcelError`.  The 512-byte size guard is a byte-level property
of the xlsx container, below the embedding: a modelled file is a
loadable workbook. -/
def load_workbook_safe (fs : Fs) (path : String) : Except ExcErr Workbook :=
  match fs path with
  | none => .error (.invalidExcel "Excel file not found")
  | some wb =>
    if !hasAllowedExt path then .error (.invalidExcel "Unsupported Excel extension")
    else .ok wb

/-- Python truthiness of the optional sheet name (`if sheet_name:`). -/
def sheetTruthy (o : Option String) : Bool := o.getD "" ≠ ""

/-- Model of `_get_sheet`: a truthy name must exist in the workbook,
otherwise the first sheet is used (`wb[wb.sheetnames[0]]`; an empty
workbook would raise, which openpyxl rules out). -/
def getSheet (wb : Workbook) (sheetName : Option String) : Except ExcErr Sheet :=
  if sheetTruthy sheetName then
    match wb.find? (fun s => s.1 == sheetName.getD "") with
    | some s => .ok s.2
    | none =>
      .error (.valueErr ("Sheet '" ++ sheetName.getD "" ++ "' not found in Excel file."))
  else
    match wb with
    | [] => .error (.invalidExcel "workbook has no sheets")
    | s :: _ => .ok s.2

/-- Replace the sheet that `getSheet` selected with new rows. -/
def setSheet (wb : Workbook) (sheetName : Option String) (rows : Sheet) : Workbook :=
  if sheetTruthy sheetName then
    wb.map (fun s => if s.1 == sheetName.getD "" then (s.1, rows) else s)
  else
    match wb with
    | [] => []
    | s :: rest => (s.1, rows) :: rest

/-- A parsed `column=value` condition. -/
structure Condition where
  column : String
  value : String
deriving DecidableEq

/-- Model of `parse_simple_condition`: falsy or `=`-free strings yield no
condition; otherwise split at the first `=`, strip the column, and strip
quotes from the value. -/
def parse_simple_condition (condition : Option String) : Option Condition :=
  match condition with
  | none => none
  | some s =>
    if s = "" then none
    else if !containsSub "=" s then none
    else
      let p := splitFirstAux '=' [] s.data
      some ⟨pyStrip (String.mk p.1),
            pyStripChar '"' (pyStripChar '\'' (pyStrip (String.mk p.2)))⟩

/-- A read result row: the Python dict `{headers[i]: row[i] ...}`,
keyed by header cell values, in first-insertion order. -/
abbrev Record := List (CellV × CellV)

/-- Python dict insertion: overwrite in place on an existing key, else
append. -/
def dictIns (d : Record) (k v : CellV) : Record :=
  if d.any (fun kv => kv.1 == k) then
    d.map (fun kv => if kv.1 == k then (kv.1, v) else kv)
  else d ++ [(k, v)]

/-- The dict comprehension `{headers[i]: row[i] for i in range(len(headers))}`
(rows are padded to the sheet width, so `zip` loses nothing). -/
def mkRecord (headers row : List CellV) : Record :=
  (headers.zip row).foldl (fun d hv => dictIns d hv.1 hv.2) []

/-- Python `record.get(k)` with default `None`. -/
def recordGet (r : Record) (k : CellV) : CellV :=
  match r.find? (fun kv => kv.1 == k) with
  | some kv => kv.2
  | none => none

/-- The index `header_index[col]` of `{name: idx}` built over the header
cells: the last index whose cell equals the string `col`; `none` models
`col not in header_index`. -/
def lastIdx (headers : List CellV) (col : String) : Option Nat :=
  (List.range headers.length).foldl
    (fun acc i => if headers.get? i = some (some (.s col)) then some i else acc) none

/-- `cond.column in header_index`. -/
def hdrHasKey (headers : List CellV) (col : String) : Bool :=
  (lastIdx headers col).isSome

/-- Model of `excel_read`: resolve and open the file, select the sheet,
read the header, then return one record per data row, filtered by the
condition only when its column is a header name. -/
def excel_read (fs : Fs) (path : String) (sheetName condition : Option String) :
    Except ExcErr (List Record) :=
  match ensureExcelPath fs path with
  | .error e => .error e
  | .ok _ =>
  match load_workbook_safe fs path with
  | .error e => .error e
  | .ok wb =>
  match getSheet wb sheetName with
  | .error e => .error e
  | .ok sheet =>
  let headers := headersOf sheet
  if headers.isEmpty then .ok []
  else
  let w := sheetWidth sheet
  let cond := parse_simple_condition condition
  .ok ((sheet.drop 1).filterMap (fun row =>
    let record := mkRecord headers (padRow w row)
    match cond with
    | some c =>
      if hdrHasKey headers c.column then
        if pyStrC (recordGet record (some (.s c.column))) ≠ c.value then none
        else some record
      else some record
    | none => some record))

/-- Model of `_normalise_insert_values`.  `J` is the `json.loads` oracle
(`none` = `JSONDecodeError`).  The `Nat` argument is recursion fuel for
the string case (Python recurses on the decoded value; real `json.loads`
output shrinks, so some finite fuel always suffices — theorems about the
string case are stated one unfolding at a time). -/
def normaliseInsertValues (J : String → Option PyVal) (sheet : Sheet) :
    Nat → PyVal → Except String (List PyVal)
  | fuel, values =>
    let headers := headersOf sheet
    if headers.isEmpty then
      match values with
      | .vlist xs => .ok xs
      | _ => .error "Sheet has no header row; INSERT VALUES must be a list in column order."
    else
      match values with
      | .vdict kvs =>
        .ok (headers.map (fun h =>
          match h with
          | some (.s nm) => (lookupKey kvs nm).getD .vnone
          | _ => .vnone))
      | .vlist xs =>
        .ok (if xs.length < headers.length then
               xs ++ List.replicate (headers.length - xs.length) PyVal.vnone
             else xs.take headers.length)
      | .vstr s =>
        let text := pyStrip s
        if text ≠ "" then
          match fuel with
          | 0 => .error "recursion fuel exhausted (modelling artefact)"
          | fuel + 1 =>
            match J text with
            | some parsed => normaliseInsertValues J sheet fuel parsed
            | none =>
              normaliseInsertValues J sheet fuel
                (.vlist ((splitAllChar ',' text).map (fun p => .vstr (pyStrip p))))
        else .error "INSERT VALUES must be a list, dict, JSON string, or comma-separated string."
      | _ => .error "INSERT VALUES must be a list, dict, JSON string, or comma-separated string."

/-- Convert a normalised row into cells for `sheet.append`; `none` when
some element is not a writable scalar (openpyxl `ValueError`). -/
def cellsOfRow : List PyVal → Option (List CellV)
  | [] => some []
  | v :: rest =>
    match toCellV v, cellsOfRow rest with
    | some c, some cs => some (c :: cs)
    | _, _ => none

/-- Model of `excel_insert`: open, select sheet, normalise, append, save. -/
def excel_insert (J : String → Option PyVal) (fuel : Nat) (fs : Fs) (path : String)
    (sheetName : Option String) (values : PyVal) : Except ExcErr Fs :=
  match ensureExcelPath fs path with
  | .error e => .error e
  | .ok _ =>
  match load_workbook_safe fs path with
  | .error e => .error e
  | .ok wb =>
  match getSheet wb sheetName with
  | .error e => .error e
  | .ok sheet =>
  match normaliseInsertValues J sheet fuel values with
  | .error m => .error (.valueErr m)
  | .ok row =>
    match cellsOfRow row with
    | none => .error (.valueErr "Cannot convert value to Excel cell")
    | some cells =>
      let wb2 := setSheet wb sheetName (sheet ++ [cells])
      .ok (fun p => if p = path then some wb2 else fs p)

/-- Apply the `values.items()` writes of `excel_update` to one matched
row, skipping keys outside the header. -/
def applyWrites (headers : List CellV) (row : List CellV) :
    List (String × PyVal) → Except ExcErr (List CellV)
  | [] => .ok row
  | (col, v) :: rest =>
    match lastIdx headers col with
    | none => applyWrites headers row rest
    | some i =>
      match toCellV v with
      | none => .error (.valueErr "Cannot convert value to Excel cell")
      | some c => applyWrites headers (row.set i c) rest

/-- Model of `excel_update`: a missing condition, a headerless sheet or
an unknown condition column return count 0 before any save; otherwise
matched rows (string-coerced equality on the condition column) receive
the writes and the file is saved. -/
def excel_update (fs : Fs) (path : String) (sheetName condition : Option String)
    (values : List (String × PyVal)) : Except ExcErr (Fs × Nat) :=
  match ensureExcelPath fs path with
  | .error e => .error e
  | .ok _ =>
  match load_workbook_safe fs path with
  | .error e => .error e
  | .ok wb =>
  match getSheet wb sheetName with
  | .error e => .error e
  | .ok sheet =>
  match parse_simple_condition condition with
  | none => .ok (fs, 0)
  | some cond =>
    let headers := headersOf sheet
    if headers.isEmpty then .ok (fs, 0)
    else
      match lastIdx headers cond.column with
      | none => .ok (fs, 0)
      | some idx =>
        let w := sheetWidth sheet
        let step := fun (acc : List (List CellV) × Nat) (row0 : List CellV) =>
          let row := padRow w row0
          if pyStrC (row.getD idx none) = cond.value then
            match applyWrites headers row values with
            | .error e => Except.error e
            | .ok row2 => Except.ok (acc.1 ++ [row2], acc.2 + 1)
          else Except.ok (acc.1 ++ [row], acc.2)
        match (sheet.drop 1).foldlM step ([], 0) with
        | .error e => .error e
        | .ok res =>
          let wb2 := setSheet wb sheetName (sheet.take 1 ++ res.1)
          .ok ((fun p => if p = path then some wb2 else fs p), res.2)

/-- Model of `excel_delete`: same guards as `excel_update`; matched rows
are removed bottom-up (equivalently, filtered out) and the file saved. -/
def excel_delete (fs : Fs) (path : String) (sheetName condition : Option String) :
    Except ExcErr (Fs × Nat) :=
  match ensureExcelPath fs path with
  | .error e => .error e
  | .ok _ =>
  match load_workbook_safe fs path with
  | .error e => .error e
  | .ok wb =>
  match getSheet wb sheetName with
  | .error e => .error e
  | .ok sheet =>
  match parse_simple_condition condition with
  | none => .ok (fs, 0)
  | some cond =>
    let headers := headersOf sheet
    if headers.isEmpty then .ok (fs, 0)
    else
      match lastIdx headers cond.column with
      | none => .ok (fs, 0)
      | some idx =>
        let w := sheetWidth sheet
        let isMatch := fun (row0 : List CellV) =>
          pyStrC ((padRow w row0).getD idx none) = cond.value
        let keep := (sheet.drop 1).filter (fun r => !(decide (isMatch r)))
        let cnt := (sheet.drop 1).countP (fun r => decide (isMatch r))
        let wb2 := setSheet wb sheetName (sheet.take 1 ++ keep)
        .ok ((fun p => if p = path then some wb2 else fs p), cnt)

/-! ## Intent parser (`app/routers/workpal.py`) -/

/-- The recognised intent field names, in the order the parser scans
them (also the lookahead alternation of the field regex). -/
def FIELD_KEYS : List String :=
  ["ACTION", "DEPARTMENT", "EXCEL_PATH", "SHEET", "CONDITION", "VALUES",
   "NOTES", "EMPLOYEE_NAME", "EMAIL", "SUBJECT", "BODY"]

/-- The seven allowed actions. -/
def ALLOWED_ACTIONS : List String :=
  ["READ", "INSERT", "UPDATE", "DELETE", "TEMPLATE", "WORKFLOW", "SEND_EMAIL"]

/-- Case-insensitive prefix test (regex `IGNORECASE` on ASCII field
names). -/
def ciStarts : List Char → List Char → Bool
  | [], _ => true
  | _ :: _, [] => false
  | p :: ps, c :: cs => p.toLower = c.toLower && ciStarts ps cs

/-- Match `key\s*:` at the start of `cs` (case-insensitive key, greedy
whitespace, then a literal colon), returning the text after the colon.
Backtracking the greedy `\s*` can never help reach the colon, since no
whitespace character is a colon, so maximal-munch is exact. -/
def matchKeyColon (key : List Char) (cs : List Char) : Option (List Char) :=
  if ciStarts key cs then
    match (cs.drop key.length).dropWhile pyIsSpace with
    | ':' :: rest => some rest
    | _ => none
  else none

/-- The regex lookahead `(?=(ACTION|…|BODY)\s*:)`. -/
def fieldAhead (cs : List Char) : Bool :=
  FIELD_KEYS.any (fun k => (matchKeyColon k.data cs).isSome)

/-- The regex `$` in non-MULTILINE mode: end of input, or just before a
final newline. -/
def atDollar : List Char → Bool
  | [] => true
  | ['\n'] => true
  | _ => false

/-- The lazy capture `(?P<key>.*?)(?=(FIELDS)\s*:|$)` under `DOTALL`:
take characters until the first position where another field starts or
`$` matches (a length-zero capture is allowed). -/
def takeFieldValue : List Char → List Char
  | [] => []
  | c :: rest =>
    if fieldAhead (c :: rest) || atDollar (c :: rest) then []
    else c :: takeFieldValue rest

/-- Model of `re.search` for the field pattern
`key\s*:(?P<key>.*?)(?=(FIELDS)\s*:|$)` (`IGNORECASE | DOTALL`): find
the first position where `key\s*:` matches — the lazy tail then always
succeeds because `$` matches at the end — and return the captured value
already stripped, as the Python code stores it. -/
def searchField (key : List Char) : List Char → Option String
  | [] => none
  | c :: rest =>
    match matchKeyColon key (c :: rest) with
    | some afterColon => some (pyStrip (String.mk (takeFieldValue afterColon)))
    | none => searchField key rest

/-- Model of `_norm_optional`: `None` stays absent; a value that strips
and lower-cases to one of the absence sentinels becomes absent;
otherwise the stripped value is kept. -/
def normOptional (v : Option String) : Option String :=
  match v with
  | none => none
  | some s =>
    let t := pyStrip s
    if ["", "none", "null", "empty", "n/a"].contains (pyLower t) then none
    else some t

/-- An intent as the `OperationIntent` pydantic schema.  `VALUES` is the
untyped payload; `PyVal.vnone` is Python `None` (the field's default). -/
structure OperationIntent where
  ACTION : String
  DEPARTMENT : String
  EXCEL_PATH : Option String := none
  SHEET : Option String := none
  CONDITION : Option String := none
  VALUES : PyVal := .vnone
  NOTES : Option String := none
  EMPLOYEE_NAME : Option String := none
  EMAIL : Option String := none
  SUBJECT : Option String := none
  BODY : Option String := none

/-- Model of `parse_intent_from_text` (`J` is the `json.loads` oracle):
take the text after the first `INTENT:` marker, extract each field with
the field regex, require truthy ACTION and DEPARTMENT, require the
upper-cased action to be one of the seven allowed values, normalise the
optional fields, and decode `VALUES` as JSON when possible (keeping the
raw string otherwise). -/
def parse_intent_from_text (J : String → Option PyVal) (text : String) :
    Option OperationIntent :=
  if !containsSub "INTENT:" text then none
  else
    match afterSub "INTENT:".data text.data with
    | none => none
    | some after =>
      let action_raw := (searchField "ACTION".data after).getD ""
      let department_raw := (searchField "DEPARTMENT".data after).getD ""
      if action_raw = "" || department_raw = "" then none
      else
        let action := pyUpper (pyStrip action_raw)
        let department := pyStrip department_raw
        if !ALLOWED_ACTIONS.contains action then none
        else
          let values : PyVal :=
            match normOptional (searchField "VALUES".data after) with
            | none => .vnone
            | some raw =>
              match J raw with
              | some v => v
              | none => .vstr raw
          some { ACTION := action, DEPARTMENT := department,
                 EXCEL_PATH := normOptional (searchField "EXCEL_PATH".data after),
                 SHEET := normOptional (searchField "SHEET".data after),
                 CONDITION := normOptional (searchField "CONDITION".data after),
                 VALUES := values,
                 NOTES := normOptional (searchField "NOTES".data after),
                 EMPLOYEE_NAME := normOptional (searchField "EMPLOYEE_NAME".data after),
                 EMAIL := normOptional (searchField "EMAIL".data after),
                 SUBJECT := normOptional (searchField "SUBJECT".data after),
                 BODY := normOptional (searchField "BODY".data after) }

/-- Model of `re.split(r"(?=INTENT:)", text)`: cut immediately before
every occurrence of the marker (the scanner advances one character after
each zero-width match, exactly as Python does). -/
def splitBeforeMarker (marker : List Char) (acc : List Char) :
    List Char → List (List Char)
  | [] => [acc.reverse]
  | c :: rest =>
    if listStarts marker (c :: rest) then
      acc.reverse :: splitBeforeMarker marker [c] rest
    else splitBeforeMarker marker (c :: acc) rest

/-- Model of `parse_intents_from_text`: no marker means no intents; else
split before each marker, skip chunks without the marker, and collect
the successfully parsed intents in order. -/
def parse_intents_from_text (J : String → Option PyVal) (text : String) :
    List OperationIntent :=
  if !containsSub "INTENT:" text then []
  else
    (splitBeforeMarker "INTENT:".data [] text.data).filterMap (fun chunk =>
      if !containsSub "INTENT:" (String.mk chunk) then none
      else parse_intent_from_text J (String.mk chunk))

/-! ## Authority gate and intent executor (`app/routers/intent.py`) -/

/-- Python `"\n".join(texts)`. -/
def joinNl : List String → String
  | [] => ""
  | [t] => t
  | t :: rest => t ++ "\n" ++ joinNl rest

/-- Model of `check_authority`: join all central rule texts of the user,
lower-case, and scan for the two literal markers, disallow first.
Returns `(allowed, requires_approval, reason)`. -/
def check_authority (centralTexts : List String) (department action : String) :
    Bool × Bool × String :=
  let full_text := pyLower (joinNl centralTexts)
  let marker_disallow := "disallow " ++ pyLower action ++ " " ++ pyLower department
  let marker_require_approval := "approval " ++ pyLower action ++ " " ++ pyLower department
  if containsSub marker_disallow full_text then
    (false, false, "Disallowed by central rules markers.")
  else if containsSub marker_require_approval full_text then
    (false, true, "Approval required by central rules markers.")
  else (true, false, "Allowed (no blocking markers found).")

/-- Outcome of the `send_email` service (SMTP with bounded retry):
success, `EmailConfigurationError`, or any other exception after the
retries are exhausted. -/
inductive SendOutcome where
  | ok
  | configErr (msg : String)
  | sendErr (msg : String)

/-- The executor's collaborators for one request, all user-scoped:

* `centralTexts` — every `CentralRule.rule_text` of the user (the
  authority gate joins them all);
* `autoSendFlag` — `central_rules_get_flag(user, "auto_send_on_resignation")`:
  the boolean column of the user's latest central rule, `false` without one;
* `deptFile` — department ↦ `excel_path` of the latest `DepartmentFile`;
* `deptRule` — department ↦ `rule_text` of the latest `DepartmentRule`;
* `lookupEmail` — the pandas-based `lookup_email_by_name(path, sheet, name)`
  oracle (`none` both for read failures and for a missing match);
* `sendEmail` — the SMTP sender oracle;
* `jsonLoads`, `jsonFuel` — the `json.loads` oracle and normalisation fuel;
* `auditFails` — whether the `EmailAudit` construction/commit raises
  (swallowed by the cascade's inner `except`). -/
structure Env where
  centralTexts : List String
  autoSendFlag : Bool
  deptFile : String → Option String
  deptRule : String → Option String
  lookupEmail : String → Option String → String → Option String
  sendEmail : String → String → String → SendOutcome
  jsonLoads : String → Option PyVal
  jsonFuel : Nat
  auditFails : Bool

/-- An `EmailAudit` row as the cascade constructs it (field per keyword
argument of the constructor call). -/
structure EmailAudit where
  user_id : String
  to_email : String
  subject : String
  body : String
  status : String
  error_message : Option String
deriving DecidableEq

/-- The observable side effects of one execution: the filesystem, the
audit rows written, and the attempted email sends `(to, subject, body)`. -/
structure Trace where
  fs : Fs
  audits : List EmailAudit
  sent : List (String × String × String)

/-- The `data` payload of a response: rows for READ, rule text for
TEMPLATE/WORKFLOW. -/
inductive ResData where
  | rows (rs : List Record)
  | ruleText (t : String)
deriving DecidableEq

/-- An `IntentExecutionResponse` (the SEND_EMAIL handler's raw dicts
carry the same two fields). -/
structure Response where
  success : Bool
  message : String
  data : Option ResData := none
deriving DecidableEq

/-- An exception leaving the executor: an `HTTPException` with status
code and detail, or an uncaught non-HTTP exception. -/
inductive HErr where
  | http (code : Nat) (detail : String)
  | uncaught (msg : String)
deriving DecidableEq

/-- Result of one executor call: the response or exception, plus the
side-effect trace at that point. -/
abbrev ExecResult := Except HErr Response × Trace

/-- Python `str(exc)` for a modelled exception (its exact text is never
load-bearing: the cascade only stores it in an audit's error detail). -/
def herrStr : HErr → String
  | .http code detail => toString code ++ ": " ++ detail
  | .uncaught m => m

/-- Map an Excel-service error through the executor's `try/except`:
`FileNotFoundError` → 404, `ValueError`/`InvalidFileException` → 400,
while `InvalidExcelError` is caught by neither clause and propagates. -/
def excErrToH : ExcErr → HErr
  | .fileNotFound m => .http 404 m
  | .valueErr m => .http 400 m
  | .invalidExcel m => .uncaught m

/-- Resolve the spreadsheet path: an explicit truthy `EXCEL_PATH` wins,
else the latest registration for the department, else 400. -/
def resolveExcelPath (env : Env) (intent : OperationIntent) : Except HErr String :=
  if optStrFalsy intent.EXCEL_PATH then
    match env.deptFile intent.DEPARTMENT with
    | none => .error (.http 400 "Excel path not provided and no department file registered.")
    | some p => .ok p
  else .ok (intent.EXCEL_PATH.getD "")

/-- The regex `^[^@\s]+@[^@\s]+\.[^@\s]+$` on the stripped address:
exactly one `@`, a non-empty whitespace-free local part, and a
whitespace-free domain with a dot that is neither its first nor its
last character. -/
def emailRe (s : String) : Bool :=
  match splitAllChar '@' s with
  | [l, d] =>
    l ≠ "" && l.data.all (fun c => !pyIsSpace c) &&
    d.data.all (fun c => !pyIsSpace c) && ((d.data.drop 1).dropLast.contains '.')
  | _ => false

/-- Model of the SEND_EMAIL branch of `execute_intent` (lines 312–401):
HR-only, required employee name, email resolution via the latest HR
registration when absent, address-shape validation, required subject and
body, the second `check_authority` call on the literal action
`"SEND_EMAIL"`, then the guarded send whose failures become
`success=false` responses. -/
def execSendEmail (env : Env) (intent : OperationIntent) (tr : Trace) : ExecResult :=
  if pyUpper intent.DEPARTMENT ≠ "HR" then
    (.error (.http 403 "SEND_EMAIL is only supported for HR department."), tr)
  else
    let subject := intent.SUBJECT.getD ""
    let body := intent.BODY.getD ""
    if optStrFalsy intent.EMPLOYEE_NAME then
      (.error (.http 400 "EMPLOYEE_NAME is required for SEND_EMAIL."), tr)
    else
      let employee_name := intent.EMPLOYEE_NAME.getD ""
      let toRes : Except HErr String :=
        if optStrFalsy intent.EMAIL then
          match env.deptFile "HR" with
          | none =>
            .error (.http 400 "No HR Excel database registered; cannot resolve employee email.")
          | some p =>
            match env.lookupEmail p
                (if sheetTruthy intent.SHEET then intent.SHEET else none) employee_name with
            | none => .error (.http 400 "Employee not found in HR database")
            | some e => .ok e
        else .ok (intent.EMAIL.getD "")
      match toRes with
      | .error e => (.error e, tr)
      | .ok to_email =>
        if !emailRe (pyStrip to_email) then
          (.error (.http 400 "Invalid email address format."), tr)
        else if subject = "" || body = "" then
          (.error (.http 400 "SUBJECT and BODY are required for SEND_EMAIL intents."), tr)
        else
          let ca := check_authority env.centralTexts "HR" "SEND_EMAIL"
          if !(ca.1 && !ca.2.1) then
            (.error (.http 403 "Central rules forbid sending this email."), tr)
          else
            let tr1 : Trace := { tr with sent := tr.sent ++ [(to_email, subject, body)] }
            match env.sendEmail to_email subject body with
            | .ok => (.ok { success := true, message := "EMAIL sent" }, tr1)
            | .configErr m => (.ok { success := false, message := m }, tr1)
            | .sendErr m =>
              (.ok { success := false, message := "Failed to send email: " ++ m }, tr1)

/-- First `VALUES` entry whose key strips and lower-cases to `"status"`. -/
def statusValOf (kvs : List (String × PyVal)) : Option PyVal :=
  (kvs.find? (fun kv => pyLower (pyStrip kv.1) == "status")).map (fun kv => kv.2)

/-- The candidate scan `("employee_name", "name", "full_name")`: first
candidate key that is present with a truthy value. -/
def firstTruthyCandidate (kvs : List (String × PyVal)) : List String → Option PyVal
  | [] => none
  | c :: rest =>
    match lookupKey kvs c with
    | some v => if pyTruthy v then some v else firstTruthyCandidate kvs rest
    | none => firstTruthyCandidate kvs rest

/-- Employee name from the first re-read row: the value of the first
record key that is a string containing `"name"` (case-insensitively). -/
def nameFromRows : List Record → Option PyVal
  | [] => none
  | first :: _ =>
    match first.find? (fun kv =>
        match kv.1 with
        | some (.s nm) => containsSub "name" (pyLower nm)
        | _ => false) with
    | some kv => some (cellToPy kv.2)
    | none => none

/-- Model of the auto-send-on-resignation cascade (lines 148–256).  The
whole block sits inside `try/except Exception: log; continue`, and every
failure point inside it is also individually guarded, so only the side
effects escape — never an exception and never a change to the UPDATE
response.  `nested` is the recursive `execute_intent` call used for the
synthesised SEND_EMAIL intent. -/
def runCascade (env : Env) (nested : OperationIntent → Trace → ExecResult)
    (user_id : String) (intent : OperationIntent) (excel_path : String)
    (kvs : List (String × PyVal)) (tr : Trace) : Trace :=
  match statusValOf kvs with
  | none => tr
  | some sv =>
    if pyTruthy sv && pyLower (pyStrip (pyStrP sv)) = "resigned" then
      if env.autoSendFlag then
        let nameV : Option PyVal :=
          match firstTruthyCandidate kvs ["employee_name", "name", "full_name"] with
          | some v => some (.vstr (pyStrP v))
          | none =>
            match excel_read tr.fs excel_path intent.SHEET intent.CONDITION with
            | .error _ => none
            | .ok rows => nameFromRows rows
        match nameV with
        | none => tr
        | some nv =>
          if pyTruthy nv then
            let nameStr := pyStrP nv
            let template : Option String :=
              match env.deptRule "HR" with
              | some t => if t ≠ "" then some t else none
              | none => none
            let subject := "Resignation Acceptance"
            let body :=
              match template with
              | some t => pyReplace t "{name}" nameStr
              | none =>
                "Dear " ++ nameStr ++
                  ",\n\nWe acknowledge and accept your resignation.\n\nBest regards, HR"
            let send_intent : OperationIntent :=
              { ACTION := "SEND_EMAIL", DEPARTMENT := "HR",
                EMPLOYEE_NAME := some nameStr, EMAIL := none,
                SUBJECT := some subject, BODY := some body }
            let res := nested send_intent tr
            let succ :=
              match res.1 with
              | .ok r => r.success
              | .error _ => false
            let msgText :=
              match res.1 with
              | .ok r => r.message
              | .error e => herrStr e
            let audit_status := if succ then "SENT" else "FAILED"
            let to_field :=
              match send_intent.EMAIL with
              | none => ""
              | some e => if e = "" then "" else e
            if env.auditFails then res.2
            else
              { res.2 with audits := res.2.audits ++
                  [{ user_id := user_id, to_email := to_field, subject := subject,
                     body := body, status := audit_status,
                     error_message := if succ then none else some msgText }] }
          else tr
      else tr
    else tr

/-- The READ arm. -/
def runRead (intent : OperationIntent) (path : String) (tr : Trace) : ExecResult :=
  match excel_read tr.fs path intent.SHEET intent.CONDITION with
  | .ok rows => (.ok { success := true, message := "READ completed", data := some (.rows rows) }, tr)
  | .error e => (.error (excErrToH e), tr)

/-- The INSERT arm. -/
def runInsert (env : Env) (intent : OperationIntent) (path : String) (tr : Trace) : ExecResult :=
  match intent.VALUES with
  | .vnone => (.error (.http 400 "INSERT requires VALUES."), tr)
  | v =>
    match excel_insert env.jsonLoads env.jsonFuel tr.fs path intent.SHEET v with
    | .ok fs2 => (.ok { success := true, message := "INSERT completed" }, { tr with fs := fs2 })
    | .error e => (.error (excErrToH e), tr)

/-- The UPDATE arm, including the resignation cascade; the cascade runs
after the update is saved and cannot alter the returned response. -/
def runUpdate (env : Env) (nested : OperationIntent → Trace → ExecResult)
    (user_id : String) (intent : OperationIntent) (path : String) (tr : Trace) : ExecResult :=
  match intent.VALUES with
  | .vdict kvs =>
    if optStrFalsy intent.SHEET || optStrFalsy intent.CONDITION then
      (.error (.http 400 "UPDATE requires SHEET, CONDITION and VALUES (mapping column->new value)."), tr)
    else
      match excel_update tr.fs path intent.SHEET intent.CONDITION kvs with
      | .error e => (.error (excErrToH e), tr)
      | .ok fsn =>
        let tr1 : Trace := { tr with fs := fsn.1 }
        let tr2 := runCascade env nested user_id intent path kvs tr1
        (.ok { success := true,
               message := "UPDATE completed for " ++ toString fsn.2 ++ " rows" }, tr2)
  | _ =>
    (.error (.http 400 "UPDATE requires SHEET, CONDITION and VALUES (mapping column->new value)."), tr)

/-- The DELETE arm. -/
def runDelete (intent : OperationIntent) (path : String) (tr : Trace) : ExecResult :=
  if optStrFalsy intent.SHEET || optStrFalsy intent.CONDITION then
    (.error (.http 400 "DELETE requires SHEET and CONDITION."), tr)
  else
    match excel_delete tr.fs path intent.SHEET intent.CONDITION with
    | .ok fsn =>
      (.ok { success := true, message := "DELETE completed for " ++ toString fsn.2 ++ " rows" },
       { tr with fs := fsn.1 })
    | .error e => (.error (excErrToH e), tr)

/-- One pass of `execute_intent` (lines 54–403), parametric in the
recursive call used by the cascade: authority gate first (denials are
returned, not raised), then dispatch on the upper-cased action. -/
def execOne (env : Env) (nested : OperationIntent → Trace → ExecResult)
    (user_id : String) (intent : OperationIntent) (tr : Trace) : ExecResult :=
  let action := pyUpper intent.ACTION
  let ca := check_authority env.centralTexts intent.DEPARTMENT action
  if !ca.1 && ca.2.1 then
    (.ok { success := false,
           message := "This action requires approval based on company authority rules." }, tr)
  else if !ca.1 && !ca.2.1 then
    (.ok { success := false,
           message := "This action cannot be performed due to company policy restrictions." }, tr)
  else if action = "READ" || action = "INSERT" || action = "UPDATE" || action = "DELETE" then
    match resolveExcelPath env intent with
    | .error e => (.error e, tr)
    | .ok path =>
      if action = "READ" then runRead intent path tr
      else if action = "INSERT" then runInsert env intent path tr
      else if action = "UPDATE" then runUpdate env nested user_id intent path tr
      else runDelete intent path tr
  else if action = "TEMPLATE" || action = "WORKFLOW" then
    match env.deptRule intent.DEPARTMENT with
    | none => (.error (.http 404 "No department rules found for TEMPLATE/WORKFLOW."), tr)
    | some t =>
      (.ok { success := true, message := action ++ " rule_text returned.",
             data := some (.ruleText t) }, tr)
  else if action = "SEND_EMAIL" then execSendEmail env intent tr
  else (.error (.http 400 "Unsupported ACTION in intent."), tr)

/-- The nested executor call made by the cascade.  Its own nested slot is
unreachable: the cascade only synthesises SEND_EMAIL intents, which
never recurse. -/
def execNested (env : Env) (user_id : String) (intent : OperationIntent)
    (tr : Trace) : ExecResult :=
  execOne env (fun _ tr2 => (.error (.uncaught "cascade depth exceeded"), tr2)) user_id intent tr

/-- Model of `execute_intent`: one pass whose cascade re-enters the
executor once, synchronously. -/
def execute_intent (env : Env) (user_id : String) (intent : OperationIntent)
    (tr : Trace) : ExecResult :=
  execOne env (execNested env user_id) user_id intent tr

/-! ## Concrete fixtures used by witness theorems -/

/-- A small HR workbook: one sheet `"S"`, headers `id`/`Name`, two data
rows. -/
def wbA : Workbook :=
  [("S", [[some (.s "id"), some (.s "Name")],
          [some (.i 1), some (.s "Alice")],
          [some (.i 2), some (.s "Bob")]])]

/-- The rows of sheet `"S"` of `wbA`. -/
def sheetA : Sheet :=
  [[some (.s "id"), some (.s "Name")],
   [some (.i 1), some (.s "Alice")],
   [some (.i 2), some (.s "Bob")]]

/-- A filesystem holding `wbA` at one path. -/
def fsA : Fs := fun p => if p = "/tmp/db.xlsx" then some wbA else none

/-- A `json.loads` oracle that always fails to decode. -/
def jNone : String → Option PyVal := fun _ => none

/-- A benign environment: no central rules, auto-send on, an HR file
registration, a resolvable email, a succeeding sender. -/
def envA : Env :=
  { centralTexts := [], autoSendFlag := true,
    deptFile := fun _ => some "/tmp/db.xlsx",
    deptRule := fun _ => none,
    lookupEmail := fun _ _ _ => some "a@b.com",
    sendEmail := fun _ _ _ => .ok,
    jsonLoads := jNone, jsonFuel := 4, auditFails := false }

/-- An empty starting trace over `fsA`. -/
def trA : Trace := { fs := fsA, audits := [], sent := [] }

/-- A resignation UPDATE intent against `wbA`. -/
def intentUpdA : OperationIntent :=
  { ACTION := "update", DEPARTMENT := "HR", SHEET := some "S", CONDITION := some "id=1",
    VALUES := .vdict [("status", .vstr "Resigned"), ("employee_name", .vstr "Alice")] }

/-- A SEND_EMAIL intent for a non-HR department. -/
def intentMailAccounts : OperationIntent :=
  { ACTION := "send_email", DEPARTMENT := "Accounts", EMPLOYEE_NAME := some "Alice",
    EMAIL := some "a@b.com", SUBJECT := some "Hi", BODY := some "Hello" }

/-- An LLM reply with two well-formed INTENT blocks separated by
narrative text. -/
def twoBlockText : String :=
  "Plan.\nINTENT:\nACTION: READ\nDEPARTMENT: HR\nNow the second step\nINTENT:\nACTION: UPDATE\nDEPARTMENT: Accounts\nDone"

/-- An LLM reply whose single block names the hallucinated action ROUTE. -/
def routeText : String := "INTENT:\nACTION: ROUTE\nDEPARTMENT: HR\n"

/-- An environment whose central rules disallow HR emails. -/
def envDisallowMail : Env := { envA with centralTexts := ["disallow send_email hr"] }

/-- A fully explicit SEND_EMAIL intent for HR. -/
def intentMailHR : OperationIntent :=
  { ACTION := "SEND_EMAIL", DEPARTMENT := "HR", EMPLOYEE_NAME := some "Alice",
    EMAIL := some "a@b.com", SUBJECT := some "Hi", BODY := some "Hello" }

/-! ## Character and string lemmas -/

lemma toNat_ofNat_valid {n : Nat} (h : n.isValidChar) : (Char.ofNat n).toNat = n := by
  rw [Char.ofNat, dif_pos h]
  rfl

lemma toLower_toUpper (c : Char) : (c.toUpper).toLower = c.toLower := by
  unfold Char.toUpper Char.toLower
  by_cases h : c.toNat ≥ 97 ∧ c.toNat ≤ 122
  · rw [if_pos h]
    have hv : (c.toNat - 32).isValidChar := by
      left
      omega
    have ht : (Char.ofNat (c.toNat - 32)).toNat = c.toNat - 32 := toNat_ofNat_valid hv
    rw [ht]
    rw [if_pos (by omega), if_neg (by omega)]
    have he : c.toNat - 32 + 32 = c.toNat := by omega
    rw [he, Char.ofNat_toNat]
  · rw [if_neg h]

lemma pyLower_pyUpper (s : String) : pyLower (pyUpper s) = pyLower s := by
  unfold pyLower pyUpper
  simp only [List.map_map]
  congr 1
  exact List.map_congr_left (fun c _ => toLower_toUpper c)

lemma upper_HR_lower {d : String} (h : pyUpper d = "HR") : pyLower d = "hr" := by
  have h2 := pyLower_pyUpper d
  rw [h] at h2
  rw [← h2]
  rfl

/-! ## List lemmas -/

lemma filterMap_some_eq_map {α β : Type} (f : α → β) (l : List α) :
    l.filterMap (fun a => some (f a)) = l.map f := by
  induction l with
  | nil => rfl
  | cons a l ih => simp [List.filterMap_cons, ih]

lemma filterMap_notguard {α β : Type} (p : α → Bool) (f : α → Option β) (l : List α) :
    l.filterMap (fun a => if !p a then none else f a) = (l.filter p).filterMap f := by
  induction l with
  | nil => rfl
  | cons a l ih =>
    by_cases hp : p a = true
    · simp only [List.filterMap_cons, List.filter_cons, hp, Bool.not_true,
        Bool.false_eq_true, if_false, if_true, ih]
    · have hp2 : p a = false := by simpa using hp
      simp only [List.filterMap_cons, List.filter_cons, hp2, Bool.not_false, if_true,
        Bool.false_eq_true, if_false, ih]

lemma splitBeforeMarker_of_no_marker (m : List Char) : ∀ {cs : List Char} (acc : List Char),
    subIn m cs = false → splitBeforeMarker m acc cs = [acc.reverse ++ cs] := by
  intro cs
  induction cs with
  | nil => intro acc h; simp [splitBeforeMarker]
  | cons c rest ih =>
    intro acc h
    simp only [subIn, Bool.or_eq_false_iff] at h
    simp only [splitBeforeMarker, h.1, Bool.false_eq_true, if_false]
    rw [ih (c :: acc) h.2]
    simp

lemma string_mk_data (s : String) : String.mk s.data = s := rfl

/-! ## Spreadsheet store lemmas -/

lemma ensure_ok {fs : Fs} {path : String} {wb : Workbook}
    (hfs : fs path = some wb) (hext : hasAllowedExt path = true) :
    ensureExcelPath fs path = .ok () := by
  simp [ensureExcelPath, hfs, hext]

lemma load_ok {fs : Fs} {path : String} {wb : Workbook}
    (hfs : fs path = some wb) (hext : hasAllowedExt path = true) :
    load_workbook_safe fs path = .ok wb := by
  simp [load_workbook_safe, hfs, hext]

lemma excel_read_all_rows (fs : Fs) (path : String) (sheetName : Option String)
    (wb : Workbook) (sheet : Sheet) (condition : Option String)
    (hfs : fs path = some wb) (hext : hasAllowedExt path = true)
    (hsheet : getSheet wb sheetName = .ok sheet)
    (hheader : headersOf sheet ≠ [])
    (hcond : parse_simple_condition condition = none ∨
      ∃ c, parse_simple_condition condition = some c ∧
        hdrHasKey (headersOf sheet) c.column = false) :
    excel_read fs path sheetName condition =
      .ok ((sheet.drop 1).map (fun row =>
        mkRecord (headersOf sheet) (padRow (sheetWidth sheet) row))) := by
  have hne : (headersOf sheet).isEmpty = false := by
    simpa [List.isEmpty_iff] using hheader
  unfold excel_read
  simp only [ensure_ok hfs hext, load_ok hfs hext, hsheet, hne,
    Bool.false_eq_true, if_false]
  rcases hcond with hc | ⟨c, hc, hcol⟩
  · simp only [hc]
    rw [filterMap_some_eq_map]
  · simp only [hc, hcol, Bool.false_eq_true, if_false]
    rw [filterMap_some_eq_map]

lemma norm_len {J : String → Option PyVal} {sheet : Sheet}
    (hh : (headersOf sheet).isEmpty = false) :
    ∀ {fuel : Nat} {v : PyVal} {row : List PyVal},
      normaliseInsertValues J sheet fuel v = .ok row →
      row.length = (headersOf sheet).length := by
  intro fuel
  induction fuel with
  | zero =>
    intro v row h
    cases v with
    | vnone => simp [normaliseInsertValues, hh] at h
    | vbool b => simp [normaliseInsertValues, hh] at h
    | vint n => simp [normaliseInsertValues, hh] at h
    | vstr s =>
      simp [normaliseInsertValues, hh] at h
      split at h <;> simp_all
    | vlist xs =>
      simp [normaliseInsertValues, hh] at h
      subst h
      split <;> simp <;> omega
    | vdict kvs =>
      simp [normaliseInsertValues, hh] at h
      subst h
      simp
  | succ fuel ih =>
    intro v row h
    cases v with
    | vnone => simp [normaliseInsertValues, hh] at h
    | vbool b => simp [normaliseInsertValues, hh] at h
    | vint n => simp [normaliseInsertValues, hh] at h
    | vstr s =>
      rw [normaliseInsertValues] at h
      simp only [hh, Bool.false_eq_true, if_false] at h
      by_cases hs : pyStrip s = ""
      · simp [hs] at h
      · simp only [hs, ne_eq, not_false_eq_true, if_true] at h
        rcases hJ : J (pyStrip s) with _ | v2 <;> rw [hJ] at h
        · exact ih h
        · exact ih h
    | vlist xs =>
      simp [normaliseInsertValues, hh] at h
      subst h
      split <;> simp <;> omega
    | vdict kvs =>
      simp [normaliseInsertValues, hh] at h
      subst h
      simp

lemma cellsOfRow_len : ∀ {row : List PyVal} {cells : List CellV},
    cellsOfRow row = some cells → cells.length = row.length := by
  intro row
  induction row with
  | nil => intro cells h; simp [cellsOfRow] at h; subst h; rfl
  | cons v rest ih =>
    intro cells h
    simp only [cellsOfRow] at h
    rcases h1 : toCellV v with _ | c <;> rw [h1] at h
    · exact absurd h (by simp)
    · rcases h2 : cellsOfRow rest with _ | cs <;> rw [h2] at h
      · exact absurd h (by simp)
      · simp at h
        subst h
        simp [ih h2]

lemma head_len_le_width (hr : List CellV) (rest : Sheet) :
    hr.length ≤ sheetWidth (hr :: rest) := by
  simp [sheetWidth]

lemma headersOf_length (sheet : Sheet) :
    (headersOf sheet).length = sheetWidth sheet := by
  cases sheet with
  | nil => rfl
  | cons hr rest =>
    have := head_len_le_width hr rest
    simp [headersOf, padRow]
    omega

lemma sheetWidth_init (rows : Sheet) (i : Nat) :
    rows.foldr (fun r acc => max r.length acc) i = max i (sheetWidth rows) := by
  induction rows with
  | nil => simp [sheetWidth]
  | cons hd rest ih =>
    simp only [sheetWidth, List.foldr_cons] at ih ⊢
    rw [ih]
    omega

lemma sheetWidth_snoc (rows : Sheet) (r : List CellV) :
    sheetWidth (rows ++ [r]) = max (sheetWidth rows) r.length := by
  have h0 : sheetWidth (rows ++ [r]) =
      rows.foldr (fun r2 acc => max r2.length acc) (max r.length 0) := by
    simp [sheetWidth, List.foldr_append]
  rw [h0, sheetWidth_init]
  omega

lemma padRow_self {w : Nat} {r : List CellV} (h : r.length = w) : padRow w r = r := by
  simp [padRow, h]

lemma getSheet_setSheet {wb : Workbook} {sheetName : Option String} {sheet : Sheet}
    (h : getSheet wb sheetName = .ok sheet) (rows : Sheet) :
    getSheet (setSheet wb sheetName rows) sheetName = .ok rows := by
  by_cases ht : sheetTruthy sheetName = true
  · simp only [getSheet, setSheet, ht, if_true] at h ⊢
    induction wb with
    | nil => simp [List.find?] at h
    | cons s rest ih =>
      by_cases hs : (s.1 == sheetName.getD "") = true
      · have heq : s.1 = sheetName.getD "" := by simpa using hs
        simp [List.find?_cons, heq]
      · have hs2 : (s.1 == sheetName.getD "") = false := by
          simpa using hs
        simp only [List.find?_cons, hs2] at h
        simp only [List.map_cons, hs2, Bool.false_eq_true, if_false,
          List.find?_cons]
        exact ih h
  · simp only [getSheet, setSheet, ht, if_false] at h ⊢
    cases wb with
    | nil => exact absurd h (by simp)
    | cons s rest => simp

/-! ## Authority gate lemmas -/

lemma check_authority_cases (t : List String) (d a : String) :
    check_authority t d a = (false, false, "Disallowed by central rules markers.") ∨
    check_authority t d a = (false, true, "Approval required by central rules markers.") ∨
    check_authority t d a = (true, false, "Allowed (no blocking markers found).") := by
  simp only [check_authority]
  split_ifs <;> simp

lemma check_authority_fst_true {t : List String} {d a : String}
    (h : (check_authority t d a).1 = true) :
    check_authority t d a = (true, false, "Allowed (no blocking markers found).") := by
  rcases check_authority_cases t d a with hc | hc | hc <;> rw [hc] at h ⊢ <;> simp_all

lemma check_authority_dep_hr (t : List String) (d : String) (h : pyLower d = "hr")
    (a : String) : check_authority t d a = check_authority t "HR" a := by
  unfold check_authority
  rw [h]
  rfl

/-! ## Executor lemmas -/

lemma excErrToH_ne_forbid (e : ExcErr) :
    excErrToH e ≠ .http 403 "Central rules forbid sending this email." := by
  cases e <;> simp [excErrToH]

lemma resolveExcelPath_err {env : Env} {intent : OperationIntent} {e : HErr}
    (h : resolveExcelPath env intent = .error e) :
    e = .http 400 "Excel path not provided and no department file registered." := by
  unfold resolveExcelPath at h
  split at h
  · split at h <;> simp_all
  · simp_all

lemma runRead_ne_forbid (intent : OperationIntent) (path : String) (tr : Trace) :
    (runRead intent path tr).1 ≠ .error (.http 403 "Central rules forbid sending this email.") := by
  unfold runRead
  split <;> simp_all [excErrToH_ne_forbid]

lemma runInsert_ne_forbid (env : Env) (intent : OperationIntent) (path : String) (tr : Trace) :
    (runInsert env intent path tr).1 ≠
      .error (.http 403 "Central rules forbid sending this email.") := by
  unfold runInsert
  split
  · simp
  · split <;> simp_all [excErrToH_ne_forbid]

lemma runUpdate_ne_forbid (env : Env) (nested : OperationIntent → Trace → ExecResult)
    (uid : String) (intent : OperationIntent) (path : String) (tr : Trace) :
    (runUpdate env nested uid intent path tr).1 ≠
      .error (.http 403 "Central rules forbid sending this email.") := by
  unfold runUpdate
  split
  · split
    · simp
    · split <;> simp_all [excErrToH_ne_forbid]
  · simp

lemma runDelete_ne_forbid (intent : OperationIntent) (path : String) (tr : Trace) :
    (runDelete intent path tr).1 ≠
      .error (.http 403 "Central rules forbid sending this email.") := by
  unfold runDelete
  split
  · simp
  · split <;> simp_all [excErrToH_ne_forbid]

lemma execSendEmail_no_forbid (env : Env) (intent : OperationIntent) (tr : Trace)
    (hgate : (check_authority env.centralTexts intent.DEPARTMENT "SEND_EMAIL").1 = true) :
    (execSendEmail env intent tr).1 ≠
      .error (.http 403 "Central rules forbid sending this email.") := by
  unfold execSendEmail
  by_cases hd : pyUpper intent.DEPARTMENT = "HR"
  · have hlow : pyLower intent.DEPARTMENT = "hr" := upper_HR_lower hd
    have hsame := check_authority_dep_hr env.centralTexts intent.DEPARTMENT hlow "SEND_EMAIL"
    rw [hsame] at hgate
    have hca := check_authority_fst_true hgate
    simp only [hd, ne_eq, not_true_eq_false, if_false, hca]
    split
    · simp
    · split
      · rename_i e heq
        split at heq
        · split at heq
          · simp only [Except.error.injEq] at heq
            simp [← heq]
          · split at heq
            · simp only [Except.error.injEq] at heq
              simp [← heq]
            · simp at heq
        · simp at heq
      · split
        · simp
        · split
          · simp
          · simp only [Bool.not_true, Bool.not_false, Bool.and_true,
              Bool.false_eq_true, if_false]
            split <;> simp
  · simp [hd]

lemma execSendEmail_audits (env : Env) (intent : OperationIntent) (tr : Trace) :
    (execSendEmail env intent tr).2.audits = tr.audits := by
  simp only [execSendEmail]
  repeat' split
  all_goals rfl

lemma execNested_audits (env : Env) (uid : String) (intent : OperationIntent) (tr : Trace)
    (hact : pyUpper intent.ACTION = "SEND_EMAIL") :
    (execNested env uid intent tr).2.audits = tr.audits := by
  simp only [execNested, execOne]
  rw [hact]
  rcases check_authority_cases env.centralTexts intent.DEPARTMENT "SEND_EMAIL" with
    hc | hc | hc <;> rw [hc]
  · rfl
  · rfl
  · simp only [Bool.not_true, Bool.false_and, Bool.false_eq_true, if_false,
      Bool.not_false, Bool.true_and]
    simp only [show (decide (("SEND_EMAIL" : String) = "READ") ||
      decide (("SEND_EMAIL" : String) = "INSERT") ||
      decide (("SEND_EMAIL" : String) = "UPDATE") ||
      decide (("SEND_EMAIL" : String) = "DELETE")) = false by decide,
      Bool.false_eq_true, if_false]
    simp only [show (decide (("SEND_EMAIL" : String) = "TEMPLATE") ||
      decide (("SEND_EMAIL" : String) = "WORKFLOW")) = false by decide,
      Bool.false_eq_true, if_false]
    simp only [show (("SEND_EMAIL" : String) = "SEND_EMAIL") = True by simp, if_true]
    exact execSendEmail_audits env intent tr

lemma execNested_send_audits (env : Env) (uid : String) (tr : Trace)
    (nm subj bdy : String) :
    (execNested env uid
      { ACTION := "SEND_EMAIL", DEPARTMENT := "HR", EMPLOYEE_NAME := some nm,
        EMAIL := none, SUBJECT := some subj, BODY := some bdy } tr).2.audits = tr.audits :=
  execNested_audits env uid _ tr (by rfl)

lemma runCascade_audits (env : Env) (uid : String) (intent : OperationIntent)
    (path : String) (kvs : List (String × PyVal)) (tr : Trace) (a : EmailAudit)
    (ha : a ∈ (runCascade env (execNested env uid) uid intent path kvs tr).audits) :
    a ∈ tr.audits ∨ a.to_email = "" := by
  simp only [runCascade] at ha
  repeat'
    first
    | exact Or.inl ha
    | (rw [List.mem_append] at ha
       rcases ha with ha | ha
       · rw [execNested_send_audits] at ha
         exact Or.inl ha
       · rw [List.mem_singleton] at ha
         subst ha
         exact Or.inr rfl)
    | (rw [execNested_send_audits] at ha
       exact Or.inl ha)
    | split at ha

lemma runRead_audits (intent : OperationIntent) (path : String) (tr : Trace) :
    (runRead intent path tr).2.audits = tr.audits := by
  unfold runRead
  split <;> rfl

lemma runInsert_audits (env : Env) (intent : OperationIntent) (path : String) (tr : Trace) :
    (runInsert env intent path tr).2.audits = tr.audits := by
  unfold runInsert
  split
  · rfl
  · split <;> rfl

lemma runDelete_audits (intent : OperationIntent) (path : String) (tr : Trace) :
    (runDelete intent path tr).2.audits = tr.audits := by
  unfold runDelete
  split
  · rfl
  · split <;> rfl

lemma runUpdate_audits (env : Env) (uid : String) (intent : OperationIntent)
    (path : String) (tr : Trace) (a : EmailAudit)
    (ha : a ∈ (runUpdate env (execNested env uid) uid intent path tr).2.audits) :
    a ∈ tr.audits ∨ a.to_email = "" := by
  unfold runUpdate at ha
  split at ha
  · split at ha
    · exact Or.inl ha
    · split at ha
      · exact Or.inl ha
      · rename_i fsn heq
        exact runCascade_audits env uid intent path _
          { fs := fsn.1, audits := tr.audits, sent := tr.sent } a ha
  · exact Or.inl ha

/-! ## Claim theorems -/

/-- C1: for every UPDATE intent whose VALUES mapping sets a key `status`
(case-insensitive) to `resigned` (case-insensitive, trimmed), any
failure inside the resignation auto-email cascade — missing employee
name, email lookup failure, nested SEND_EMAIL failure, audit write
failure (all covered by quantifying over every oracle behaviour in
`env`) — is swallowed: the executor still returns the original UPDATE
response with `success = true` and the `UPDATE completed for N rows`
message, never an error. -/
theorem c1_resignation_cascade_swallows_failures
    (env : Env) (uid : String) (intent : OperationIntent) (tr : Trace)
    (kvs : List (String × PyVal)) (s : String) (n : Nat) (path : String)
    (hact : pyUpper intent.ACTION = "UPDATE")
    (hgate : (check_authority env.centralTexts intent.DEPARTMENT "UPDATE").1 = true)
    (hpath : resolveExcelPath env intent = .ok path)
    (hvals : intent.VALUES = .vdict kvs)
    (hsheet : optStrFalsy intent.SHEET = false)
    (hcond : optStrFalsy intent.CONDITION = false)
    (hstatus : statusValOf kvs = some (.vstr s))
    (hres : pyLower (pyStrip s) = "resigned")
    (hupd : ∃ fs2, excel_update tr.fs path intent.SHEET intent.CONDITION kvs = .ok (fs2, n)) :
    (execute_intent env uid intent tr).1 =
      .ok { success := true, message := "UPDATE completed for " ++ toString n ++ " rows" } := by
  obtain ⟨fs2, hupd⟩ := hupd
  have hca := check_authority_fst_true hgate
  simp only [execute_intent, execOne]
  rw [hact, hca, hpath]
  simp only [runUpdate, hvals, hsheet, hcond, hupd]
  simp

/-- C1 witness: a concrete resignation UPDATE against `wbA` with the
cascade fully enabled still answers `UPDATE completed for 1 rows`. -/
theorem c1_witness :
    pyUpper intentUpdA.ACTION = "UPDATE" ∧
    (check_authority envA.centralTexts intentUpdA.DEPARTMENT "UPDATE").1 = true ∧
    statusValOf [("status", .vstr "Resigned"), ("employee_name", .vstr "Alice")] =
      some (.vstr "Resigned") ∧
    pyLower (pyStrip "Resigned") = "resigned" ∧
    (execute_intent envA "u1" intentUpdA trA).1 =
      .ok { success := true, message := "UPDATE completed for " ++ toString 1 ++ " rows" } :=
  ⟨by decide, by decide, by rfl, by decide,
   c1_resignation_cascade_swallows_failures envA "u1" intentUpdA trA
     [("status", .vstr "Resigned"), ("employee_name", .vstr "Alice")] "Resigned" 1 "/tmp/db.xlsx"
     (by decide) (by decide) (by rfl) (by rfl) (by rfl) (by rfl) (by rfl) (by decide)
     ⟨_, by rfl⟩⟩

/-- C2: the Authority Gate joins all central rule texts of the user,
lower-cases them, and answers `(false, false, _)` when the substring
`disallow {action} {department}` (lower-cased) is present — the
disallow marker is checked first and wins even if the approval marker is
also present — else `(false, true, _)` when `approval {action}
{department}` is present, else `(true, false, _)`. -/
theorem c2_authority_gate_markers (texts : List String) (department action : String) :
    (containsSub ("disallow " ++ pyLower action ++ " " ++ pyLower department)
        (pyLower (joinNl texts)) = true →
      check_authority texts department action =
        (false, false, "Disallowed by central rules markers.")) ∧
    (containsSub ("disallow " ++ pyLower action ++ " " ++ pyLower department)
        (pyLower (joinNl texts)) = false →
      containsSub ("approval " ++ pyLower action ++ " " ++ pyLower department)
        (pyLower (joinNl texts)) = true →
      check_authority texts department action =
        (false, true, "Approval required by central rules markers.")) ∧
    (containsSub ("disallow " ++ pyLower action ++ " " ++ pyLower department)
        (pyLower (joinNl texts)) = false →
      containsSub ("approval " ++ pyLower action ++ " " ++ pyLower department)
        (pyLower (joinNl texts)) = false →
      check_authority texts department action =
        (true, false, "Allowed (no blocking markers found).")) := by
  refine ⟨fun h1 => ?_, fun h1 h2 => ?_, fun h1 h2 => ?_⟩ <;>
    simp only [check_authority] <;> simp_all

/-- C2 witness: the spec's own examples — `disallow update hr` denies,
`approval update hr` requires approval, no markers allow. -/
theorem c2_witness :
    containsSub "disallow update hr" (pyLower (joinNl ["Disallow UPDATE HR"])) = true ∧
    check_authority ["Disallow UPDATE HR"] "HR" "UPDATE" =
      (false, false, "Disallowed by central rules markers.") ∧
    check_authority ["approval update hr"] "HR" "UPDATE" =
      (false, true, "Approval required by central rules markers.") ∧
    check_authority ["no markers here"] "HR" "UPDATE" =
      (true, false, "Allowed (no blocking markers found).") :=
  ⟨by decide,
   (c2_authority_gate_markers ["Disallow UPDATE HR"] "HR" "UPDATE").1 (by decide),
   (c2_authority_gate_markers ["approval update hr"] "HR" "UPDATE").2.1 (by decide) (by decide),
   (c2_authority_gate_markers ["no markers here"] "HR" "UPDATE").2.2 (by decide) (by decide)⟩

/-- C3: the Intent Parser splits the raw text at each occurrence of the
literal `INTENT:` marker and yields the intents in order of appearance
(first conjunct: the pipeline is exactly split → keep marker chunks →
parse each); a chunk missing a non-empty ACTION or DEPARTMENT yields no
intent (second conjunct); a chunk whose upper-cased ACTION is outside
the seven allowed values yields no intent (third conjunct); and a text
with two well-formed blocks separated by narrative yields exactly two
intents in source order while an `ACTION: ROUTE` block yields none
(final conjuncts). -/
theorem c3_intent_parsing (J : String → Option PyVal) :
    (∀ text : String, parse_intents_from_text J text =
      (((splitBeforeMarker "INTENT:".data [] text.data).map String.mk).filter
        (fun chunk => containsSub "INTENT:" chunk)).filterMap (parse_intent_from_text J)) ∧
    (∀ (chunk : String) (after : List Char),
      afterSub "INTENT:".data chunk.data = some after →
      ((searchField "ACTION".data after).getD "" = "" ∨
       (searchField "DEPARTMENT".data after).getD "" = "") →
      parse_intent_from_text J chunk = none) ∧
    (∀ (chunk : String) (after : List Char) (act : String),
      afterSub "INTENT:".data chunk.data = some after →
      searchField "ACTION".data after = some act →
      ALLOWED_ACTIONS.contains (pyUpper (pyStrip act)) = false →
      parse_intent_from_text J chunk = none) ∧
    (parse_intents_from_text J twoBlockText).map (fun i => i.ACTION) = ["READ", "UPDATE"] ∧
    parse_intents_from_text J routeText = [] := by
  refine ⟨?_, ?_, ?_, ?_, ?_⟩
  · intro text
    by_cases hm : containsSub "INTENT:" text = true
    · unfold parse_intents_from_text
      simp only [hm, Bool.not_true, Bool.false_eq_true, if_false]
      rw [filterMap_notguard (fun c => containsSub "INTENT:" (String.mk c))
        (fun c => parse_intent_from_text J (String.mk c))]
      rw [List.filter_map, List.filterMap_map]
      simp only [Function.comp_def]
    · unfold parse_intents_from_text
      have hm2 : containsSub "INTENT:" text = false := by simpa using hm
      simp only [hm2, Bool.not_false, if_true]
      have hsplit := splitBeforeMarker_of_no_marker "INTENT:".data [] hm2
      rw [hsplit]
      simp [string_mk_data, hm2]
  · intro chunk after hafter hor
    unfold parse_intent_from_text
    by_cases hm : containsSub "INTENT:" chunk = true
    · simp only [hm, Bool.not_true, Bool.false_eq_true, if_false, hafter]
      rcases hor with h | h <;> simp [h]
    · simp [hm]
  · intro chunk after act hafter hact hcon
    unfold parse_intent_from_text
    by_cases hm : containsSub "INTENT:" chunk = true
    · simp only [hm, Bool.not_true, Bool.false_eq_true, if_false, hafter, hact]
      by_cases hd : (searchField "DEPARTMENT".data after).getD "" = ""
      · simp [hd]
      · simp only [hd]
        by_cases ha : act = ""
        · simp [ha]
        · simp [ha, hd]
          simpa using hcon
    · simp [hm]
  · rfl
  · rfl

/-- C3 witness: the two-block reply parses to READ then UPDATE, a ROUTE
block parses to nothing, a block without DEPARTMENT parses to nothing. -/
theorem c3_witness :
    (parse_intents_from_text jNone twoBlockText).map (fun i => i.ACTION) =
      ["READ", "UPDATE"] ∧
    parse_intents_from_text jNone routeText = [] ∧
    parse_intent_from_text jNone "INTENT:\nACTION: READ\n" = none ∧
    parse_intent_from_text jNone "INTENT:\nACTION: ROUTE\nDEPARTMENT: HR\n" = none :=
  ⟨(c3_intent_parsing jNone).2.2.2.1,
   (c3_intent_parsing jNone).2.2.2.2,
   (c3_intent_parsing jNone).2.1 "INTENT:\nACTION: READ\n" _ (by rfl) (Or.inr (by rfl)),
   (c3_intent_parsing jNone).2.2.1 "INTENT:\nACTION: ROUTE\nDEPARTMENT: HR\n" _ "ROUTE"
     (by rfl) (by rfl) (by rfl)⟩

/-- C4: for every spreadsheet file with a header row, `excel_update` and
`excel_delete` with a condition whose column does not appear in the
header — or whose condition string lacks `=` — return a count of 0 and
leave the file unmodified (the code returns before any save on these
paths, so even the bytes are untouched), rather than failing. -/
theorem c4_update_delete_unknown_column_noop
    (fs : Fs) (path : String) (sheetName cond : Option String)
    (wb : Workbook) (sheet : Sheet) (values : List (String × PyVal))
    (hfs : fs path = some wb) (hext : hasAllowedExt path = true)
    (hsheet : getSheet wb sheetName = .ok sheet)
    (hheader : headersOf sheet ≠ [])
    (hcond : parse_simple_condition cond = none ∨
      ∃ c, parse_simple_condition cond = some c ∧
        hdrHasKey (headersOf sheet) c.column = false) :
    excel_update fs path sheetName cond values = .ok (fs, 0) ∧
    excel_delete fs path sheetName cond = .ok (fs, 0) := by
  have hne : (headersOf sheet).isEmpty = false := by
    simpa [List.isEmpty_iff] using hheader
  constructor
  · unfold excel_update
    simp only [ensure_ok hfs hext, load_ok hfs hext, hsheet]
    rcases hcond with hc | ⟨c, hc, hcol⟩
    · simp only [hc]
    · have hli : lastIdx (headersOf sheet) c.column = none := by
        simpa [hdrHasKey, Option.isSome_iff_exists] using hcol
      simp only [hc, hne, Bool.false_eq_true, if_false, hli]
  · unfold excel_delete
    simp only [ensure_ok hfs hext, load_ok hfs hext, hsheet]
    rcases hcond with hc | ⟨c, hc, hcol⟩
    · simp only [hc]
    · have hli : lastIdx (headersOf sheet) c.column = none := by
        simpa [hdrHasKey, Option.isSome_iff_exists] using hcol
      simp only [hc, hne, Bool.false_eq_true, if_false, hli]

/-- C4 witness: update and delete on `wbA` with the unknown column
`nope` return count 0 and the identical filesystem. -/
theorem c4_witness :
    getSheet wbA (some "S") = .ok sheetA ∧
    hdrHasKey (headersOf sheetA) "nope" = false ∧
    excel_update fsA "/tmp/db.xlsx" (some "S") (some "nope=1") [] = .ok (fsA, 0) ∧
    excel_delete fsA "/tmp/db.xlsx" (some "S") (some "nope=1") = .ok (fsA, 0) := by
  have h := c4_update_delete_unknown_column_noop fsA "/tmp/db.xlsx" (some "S") (some "nope=1")
    wbA sheetA [] (by rfl) (by decide) (by rfl) (by decide)
    (Or.inr ⟨⟨"nope", "1"⟩, by rfl, by decide⟩)
  exact ⟨by rfl, by decide, h.1, h.2⟩

/-- C5 (amended): for every sheet with a header row, insert
normalisation works in priority order — a mapping is projected onto the
header names with missing keys becoming null, preserving header-column
order (first conjunct); a sequence is padded with nulls or truncated so
the normalised row length always equals the header length (second
conjunct); a string that is non-empty after trimming is first decoded as
JSON and re-normalised, else split on commas into a sequence of trimmed
strings and re-normalised (third conjunct); any other shape fails with
the invalid-argument error (fourth conjunct).  The amendment: an empty
or whitespace-only string also fails with the invalid-argument error
instead of being comma-split, see the counterexample. -/
theorem c5_insert_values_normalisation (J : String → Option PyVal) (sheet : Sheet)
    (hheader : headersOf sheet ≠ []) :
    (∀ (kvs : List (String × PyVal)) (fuel : Nat), ∃ row,
      normaliseInsertValues J sheet fuel (.vdict kvs) = .ok row ∧
      row.length = (headersOf sheet).length ∧
      ∀ i, i < (headersOf sheet).length →
        row.getD i .vnone =
          (match (headersOf sheet).getD i none with
           | some (.s nm) => (lookupKey kvs nm).getD .vnone
           | _ => .vnone)) ∧
    (∀ (xs : List PyVal) (fuel : Nat), ∃ row,
      normaliseInsertValues J sheet fuel (.vlist xs) = .ok row ∧
      row.length = (headersOf sheet).length ∧
      (∀ i, i < xs.length → i < (headersOf sheet).length →
        row.getD i .vnone = xs.getD i .vnone) ∧
      (∀ i, xs.length ≤ i → i < (headersOf sheet).length → row.getD i .vnone = .vnone)) ∧
    (∀ (s : String) (fuel : Nat), pyStrip s ≠ "" →
      normaliseInsertValues J sheet (fuel + 1) (.vstr s) =
        (match J (pyStrip s) with
         | some v => normaliseInsertValues J sheet fuel v
         | none => normaliseInsertValues J sheet fuel
             (.vlist ((splitAllChar ',' (pyStrip s)).map (fun p => .vstr (pyStrip p)))))) ∧
    (∀ fuel : Nat,
      normaliseInsertValues J sheet fuel .vnone =
        .error "INSERT VALUES must be a list, dict, JSON string, or comma-separated string." ∧
      (∀ n : Int, normaliseInsertValues J sheet fuel (.vint n) =
        .error "INSERT VALUES must be a list, dict, JSON string, or comma-separated string.") ∧
      (∀ b : Bool, normaliseInsertValues J sheet fuel (.vbool b) =
        .error "INSERT VALUES must be a list, dict, JSON string, or comma-separated string.")) := by
  have hne : (headersOf sheet).isEmpty = false := by
    simpa [List.isEmpty_iff] using hheader
  refine ⟨?_, ?_, ?_, ?_⟩
  · intro kvs fuel
    refine ⟨_, by simp [normaliseInsertValues, hne]; rfl, by simp, ?_⟩
    intro i hi
    simp only [List.getD_eq_getElem?_getD, List.getElem?_map, List.getElem?_eq_getElem hi]
    rfl
  · intro xs fuel
    by_cases hlt : xs.length < (headersOf sheet).length
    · refine ⟨_, by simp [normaliseInsertValues, hne, hlt]; rfl, ?_, ?_, ?_⟩
      · simp
        omega
      · intro i hix hih
        simp [List.getD_eq_getElem?_getD, List.getElem?_append, hix]
      · intro i hix hih
        have h2 : i - xs.length < (headersOf sheet).length - xs.length := by omega
        simp [List.getD_eq_getElem?_getD, List.getElem?_append_right hix,
          List.getElem?_replicate, h2]
    · refine ⟨_, by simp [normaliseInsertValues, hne, hlt]; rfl, ?_, ?_, ?_⟩
      · simp
        omega
      · intro i hix hih
        simp [List.getD_eq_getElem?_getD, List.getElem?_take, hih]
      · intro i hix hih
        omega
  · intro s fuel hs
    simp only [normaliseInsertValues, hne, Bool.false_eq_true, if_false, hs,
      ne_eq, not_false_eq_true, if_true]
  · intro fuel
    refine ⟨?_, fun n => ?_, fun b => ?_⟩ <;> simp [normaliseInsertValues, hne]

/-- C5 counterexample: the claim as frozen says every string is decoded
as JSON and otherwise split on commas; for the whitespace-only string
`" "` that reading predicts the normalised row `[""]` (since
`" ".strip().split(",") = [""]`), but the code skips both paths when the
stripped text is empty and raises the invalid-argument `ValueError`. -/
theorem c5_counterexample :
    normaliseInsertValues jNone [[some (.s "A")]] 5 (.vstr " ") =
      .error "INSERT VALUES must be a list, dict, JSON string, or comma-separated string." ∧
    normaliseInsertValues jNone [[some (.s "A")]] 5 (.vstr " ") ≠
      .ok [PyVal.vstr ""] := by
  have he : normaliseInsertValues jNone [[some (.s "A")]] 5 (.vstr " ") =
      .error "INSERT VALUES must be a list, dict, JSON string, or comma-separated string." := by
    rfl
  exact ⟨he, fun h => Except.noConfusion (he.symm.trans h)⟩

/-- C5 witness: concrete normalisations on `sheetA` — a mapping fills
missing headers, an oversized list is truncated to the header length, a
comma string re-normalises as a list, `None` is rejected. -/
theorem c5_witness :
    headersOf sheetA ≠ [] ∧
    (∃ row, normaliseInsertValues jNone sheetA 4 (.vdict [("Name", .vstr "Zoe")]) = .ok row ∧
      row.length = (headersOf sheetA).length) ∧
    (∃ row, normaliseInsertValues jNone sheetA 4 (.vlist [.vint 1, .vint 2, .vint 3]) = .ok row ∧
      row.length = (headersOf sheetA).length) ∧
    (pyStrip " x, y " ≠ "" ∧
     normaliseInsertValues jNone sheetA 4 (.vstr " x, y ") =
       normaliseInsertValues jNone sheetA 3
         (.vlist ((splitAllChar ',' (pyStrip " x, y ")).map (fun p => .vstr (pyStrip p))))) ∧
    normaliseInsertValues jNone sheetA 4 .vnone =
      .error "INSERT VALUES must be a list, dict, JSON string, or comma-separated string." := by
  have h := c5_insert_values_normalisation jNone sheetA (by decide)
  refine ⟨by decide, ?_, ?_, ?_, (h.2.2.2 4).1⟩
  · obtain ⟨row, hok, hlen, _⟩ := h.1 [("Name", .vstr "Zoe")] 4
    exact ⟨row, hok, hlen⟩
  · obtain ⟨row, hok, hlen, _⟩ := h.2.1 [.vint 1, .vint 2, .vint 3] 4
    exact ⟨row, hok, hlen⟩
  · exact ⟨by decide, h.2.2.1 " x, y " 3 (by decide)⟩

/-- C6: round trip — for every spreadsheet with a header row and every
insertable row (one the source normalises and openpyxl accepts),
`excel_insert` followed by `excel_read` with no condition returns a
result set containing the row-mapping built from the header values and
the normalised row. -/
theorem c6_insert_read_round_trip
    (J : String → Option PyVal) (fuel : Nat) (fs : Fs) (path : String)
    (sheetName : Option String) (values : PyVal)
    (wb : Workbook) (sheet : Sheet) (row : List PyVal) (cells : List CellV)
    (hfs : fs path = some wb) (hext : hasAllowedExt path = true)
    (hsheet : getSheet wb sheetName = .ok sheet)
    (hheader : headersOf sheet ≠ [])
    (hnorm : normaliseInsertValues J sheet fuel values = .ok row)
    (hcells : cellsOfRow row = some cells) :
    ∃ fs2 recs,
      excel_insert J fuel fs path sheetName values = .ok fs2 ∧
      excel_read fs2 path sheetName none = .ok recs ∧
      mkRecord (headersOf sheet) cells ∈ recs := by
  have hne : (headersOf sheet).isEmpty = false := by
    simpa [List.isEmpty_iff] using hheader
  have hlenr : row.length = (headersOf sheet).length := norm_len hne hnorm
  have hlenc : cells.length = sheetWidth sheet := by
    rw [cellsOfRow_len hcells, hlenr, headersOf_length]
  have hins : excel_insert J fuel fs path sheetName values =
      .ok (fun p => if p = path then some (setSheet wb sheetName (sheet ++ [cells])) else fs p) := by
    unfold excel_insert
    simp only [ensure_ok hfs hext, load_ok hfs hext, hsheet, hnorm, hcells]
  cases sheet with
  | nil => simp [headersOf] at hheader
  | cons hr rest =>
    have hwc : sheetWidth (hr :: (rest ++ [cells])) = sheetWidth (hr :: rest) := by
      rw [← List.cons_append, sheetWidth_snoc, hlenc]
      omega
    have hw : sheetWidth ((hr :: rest) ++ [cells]) = sheetWidth (hr :: rest) := hwc
    have hh2 : headersOf ((hr :: rest) ++ [cells]) = headersOf (hr :: rest) := by
      show padRow (sheetWidth (hr :: (rest ++ [cells]))) hr = padRow (sheetWidth (hr :: rest)) hr
      rw [hwc]
    have hheader2 : headersOf ((hr :: rest) ++ [cells]) ≠ [] := by
      rw [hh2]
      exact hheader
    have hread := excel_read_all_rows
      (fun p => if p = path then some (setSheet wb sheetName ((hr :: rest) ++ [cells])) else fs p)
      path sheetName (setSheet wb sheetName ((hr :: rest) ++ [cells])) ((hr :: rest) ++ [cells])
      none (by simp) hext
      (getSheet_setSheet hsheet ((hr :: rest) ++ [cells])) hheader2 (Or.inl rfl)
    rw [hh2, hw] at hread
    have hdrop : ((hr :: rest) ++ [cells]).drop 1 = rest ++ [cells] := by simp
    rw [hdrop, List.map_append] at hread
    refine ⟨_, _, hins, hread, ?_⟩
    refine List.mem_append_right _ ?_
    simp only [List.map_cons, List.map_nil]
    rw [padRow_self hlenc]
    exact List.mem_singleton.mpr rfl

/-- C6 witness: inserting `{"Name": "Zoe"}` into `wbA` and re-reading
the sheet yields a result set containing the row keyed by the headers
with a null `id` and `Name = "Zoe"`. -/
theorem c6_witness :
    ∃ fs2 recs,
      excel_insert jNone 4 fsA "/tmp/db.xlsx" (some "S")
        (.vdict [("Name", .vstr "Zoe")]) = .ok fs2 ∧
      excel_read fs2 "/tmp/db.xlsx" (some "S") none = .ok recs ∧
      mkRecord (headersOf sheetA) [none, some (.s "Zoe")] ∈ recs :=
  c6_insert_read_round_trip jNone 4 fsA "/tmp/db.xlsx" (some "S")
    (.vdict [("Name", .vstr "Zoe")]) wbA sheetA [PyVal.vnone, PyVal.vstr "Zoe"]
    [none, some (.s "Zoe")] (by rfl) (by decide) (by rfl) (by decide) (by rfl) (by rfl)

/-- C7: every intent denied by an Authority Gate check receives a
structured `success = false` response with an explanatory message rather
than a raised error (first conjunct); and the second, HR-specific gate
check on the synthetic action `SEND_EMAIL` inside the SEND_EMAIL handler
never surfaces its `Central rules forbid sending this email.` error to
the caller (second conjunct) — it queries the same markers as the
top-level gate, which has already intercepted every denial as a
structured response. -/
theorem c7_gate_denials_are_structured :
    (∀ (env : Env) (uid : String) (intent : OperationIntent) (tr : Trace),
      (check_authority env.centralTexts intent.DEPARTMENT (pyUpper intent.ACTION)).1 = false →
      ∃ r, (execute_intent env uid intent tr).1 = .ok r ∧ r.success = false ∧
        (r.message = "This action requires approval based on company authority rules." ∨
         r.message = "This action cannot be performed due to company policy restrictions.")) ∧
    (∀ (env : Env) (uid : String) (intent : OperationIntent) (tr : Trace),
      (execute_intent env uid intent tr).1 ≠
        .error (.http 403 "Central rules forbid sending this email.")) := by
  constructor
  · intro env uid intent tr hdenied
    simp only [execute_intent, execOne]
    rcases check_authority_cases env.centralTexts intent.DEPARTMENT (pyUpper intent.ACTION) with
      hc | hc | hc <;> rw [hc] <;> simp_all
  · intro env uid intent tr
    simp only [execute_intent, execOne]
    rcases check_authority_cases env.centralTexts intent.DEPARTMENT (pyUpper intent.ACTION) with
      hc | hc | hc <;> rw [hc]
    · simp
    · simp
    · simp only [Bool.not_true, Bool.false_and, Bool.false_eq_true, if_false,
        Bool.not_false, Bool.true_and]
      split
      · split
        · rename_i e heq
          have he := resolveExcelPath_err heq
          simp [he]
        · split_ifs with h1 h2 h3
          · exact runRead_ne_forbid intent _ tr
          · exact runInsert_ne_forbid env intent _ tr
          · exact runUpdate_ne_forbid env _ uid intent _ tr
          · exact runDelete_ne_forbid intent _ tr
      · split
        · split <;> simp
        · split
          · rename_i hmail
            apply execSendEmail_no_forbid
            rw [hmail] at hc
            rw [hc]
          · simp

/-- C7 witness: with `disallow send_email hr` in force a valid HR
SEND_EMAIL intent gets a structured policy response, and with no rules
the executor never answers the inner-gate 403. -/
theorem c7_witness :
    (check_authority envDisallowMail.centralTexts intentMailHR.DEPARTMENT
      (pyUpper intentMailHR.ACTION)).1 = false ∧
    (∃ r, (execute_intent envDisallowMail "u1" intentMailHR trA).1 = .ok r ∧
      r.success = false ∧
      (r.message = "This action requires approval based on company authority rules." ∨
       r.message = "This action cannot be performed due to company policy restrictions.")) ∧
    (execute_intent envA "u1" intentMailHR trA).1 ≠
      .error (.http 403 "Central rules forbid sending this email.") :=
  ⟨by decide,
   c7_gate_denials_are_structured.1 envDisallowMail "u1" intentMailHR trA (by decide),
   c7_gate_denials_are_structured.2 envA "u1" intentMailHR trA⟩

/-- C8: for every SEND_EMAIL intent whose department does not
case-insensitively equal `HR`, the executor performs no email-send
attempt and writes no Email Audit record (the whole trace is unchanged,
whatever the gate decides), and — when the shared authority-gate
pre-condition holds — fails with the Forbidden error
`SEND_EMAIL is only supported for HR department.`. -/
theorem c8_send_email_non_hr_forbidden (env : Env) (uid : String)
    (intent : OperationIntent) (tr : Trace)
    (hact : pyUpper intent.ACTION = "SEND_EMAIL")
    (hdep : pyUpper intent.DEPARTMENT ≠ "HR") :
    (execute_intent env uid intent tr).2 = tr ∧
    ((check_authority env.centralTexts intent.DEPARTMENT "SEND_EMAIL").1 = true →
      (execute_intent env uid intent tr).1 =
        .error (.http 403 "SEND_EMAIL is only supported for HR department.")) := by
  constructor
  · simp only [execute_intent, execOne]
    rw [hact]
    rcases check_authority_cases env.centralTexts intent.DEPARTMENT "SEND_EMAIL" with
      hc | hc | hc <;> rw [hc] <;> simp [execSendEmail, hdep]
  · intro hgate
    have hca := check_authority_fst_true hgate
    simp only [execute_intent, execOne]
    rw [hact, hca]
    simp [execSendEmail, hdep]

/-- C8 witness: a SEND_EMAIL intent for department `Accounts` is
rejected with the Forbidden error and leaves the trace untouched. -/
theorem c8_witness :
    pyUpper intentMailAccounts.ACTION = "SEND_EMAIL" ∧
    pyUpper intentMailAccounts.DEPARTMENT ≠ "HR" ∧
    (execute_intent envA "u1" intentMailAccounts trA).2 = trA ∧
    (execute_intent envA "u1" intentMailAccounts trA).1 =
      .error (.http 403 "SEND_EMAIL is only supported for HR department.") :=
  ⟨by decide, by decide,
   (c8_send_email_non_hr_forbidden envA "u1" intentMailAccounts trA
     (by decide) (by decide)).1,
   (c8_send_email_non_hr_forbidden envA "u1" intentMailAccounts trA
     (by decide) (by decide)).2 (by decide)⟩

/-- C9: for every sheet with a header row, `excel_read` with a condition
whose column does not appear in the header silently ignores the
condition and returns every data row — identical to a condition-free
read, never an error, and never an empty result on a non-empty sheet
(unlike `excel_update`/`excel_delete`, which return count 0 there). -/
theorem c9_read_unknown_column_returns_all
    (fs : Fs) (path : String) (sheetName cond : Option String) (c : Condition)
    (wb : Workbook) (sheet : Sheet)
    (hfs : fs path = some wb) (hext : hasAllowedExt path = true)
    (hsheet : getSheet wb sheetName = .ok sheet)
    (hheader : headersOf sheet ≠ [])
    (hc : parse_simple_condition cond = some c)
    (hcol : hdrHasKey (headersOf sheet) c.column = false) :
    excel_read fs path sheetName cond = excel_read fs path sheetName none ∧
    ∃ recs, excel_read fs path sheetName cond = .ok recs ∧
      recs.length = sheet.length - 1 ∧ (sheet.drop 1 ≠ [] → recs ≠ []) := by
  have h1 := excel_read_all_rows fs path sheetName wb sheet cond hfs hext hsheet hheader
    (Or.inr ⟨c, hc, hcol⟩)
  have h2 := excel_read_all_rows fs path sheetName wb sheet none hfs hext hsheet hheader
    (Or.inl rfl)
  refine ⟨h1.trans h2.symm, _, h1, by simp, fun hd => ?_⟩
  simp only [ne_eq, List.map_eq_nil_iff]
  simpa using hd

/-- C9 witness: reading `wbA` with the unknown column `nope` equals the
condition-free read and returns both data rows. -/
theorem c9_witness :
    hdrHasKey (headersOf sheetA) "nope" = false ∧
    excel_read fsA "/tmp/db.xlsx" (some "S") (some "nope=1") =
      excel_read fsA "/tmp/db.xlsx" (some "S") none ∧
    ∃ recs, excel_read fsA "/tmp/db.xlsx" (some "S") (some "nope=1") = .ok recs ∧
      recs.length = 2 := by
  have h := c9_read_unknown_column_returns_all fsA "/tmp/db.xlsx" (some "S")
    (some "nope=1") ⟨"nope", "1"⟩ wbA sheetA (by rfl) (by decide) (by rfl)
    (by decide) (by rfl) (by decide)
  obtain ⟨heq, recs, hok, hlen, _⟩ := h
  exact ⟨by decide, heq, recs, hok, hlen⟩

/-- C10: every Email Audit record that an execution appends — audits are
written only by the resignation cascade — has an empty-string recipient
`to_email`, because the nested SEND_EMAIL intent is constructed with
`EMAIL = None` and the audit reads the recipient from that intent
(`str(send_intent.EMAIL or "")`), never from the resolved address. -/
theorem c10_cascade_audit_recipient_empty
    (env : Env) (uid : String) (intent : OperationIntent) (tr : Trace) (a : EmailAudit)
    (ha : a ∈ (execute_intent env uid intent tr).2.audits) :
    a ∈ tr.audits ∨ a.to_email = "" := by
  simp only [execute_intent, execOne] at ha
  rcases check_authority_cases env.centralTexts intent.DEPARTMENT (pyUpper intent.ACTION) with
    hc | hc | hc <;> rw [hc] at ha
  · exact Or.inl ha
  · exact Or.inl ha
  · simp only [Bool.not_true, Bool.false_and, Bool.false_eq_true, if_false,
      Bool.not_false, Bool.true_and] at ha
    split at ha
    · split at ha
      · exact Or.inl ha
      · split at ha
        · rw [runRead_audits] at ha
          exact Or.inl ha
        · split at ha
          · rw [runInsert_audits] at ha
            exact Or.inl ha
          · split at ha
            · exact runUpdate_audits env uid intent _ tr a ha
            · rw [runDelete_audits] at ha
              exact Or.inl ha
    · split at ha
      · split at ha
        · exact Or.inl ha
        · exact Or.inl ha
      · split at ha
        · rw [execSendEmail_audits] at ha
          exact Or.inl ha
        · exact Or.inl ha

/-- C10 witness: the concrete resignation UPDATE writes exactly one
fresh audit record, and its recipient field is the empty string even
though the cascade resolved and used `a@b.com` for the actual send. -/
theorem c10_witness :
    ({ user_id := "u1", to_email := "", subject := "Resignation Acceptance",
       body := "Dear Alice,\n\nWe acknowledge and accept your resignation.\n\nBest regards, HR",
       status := "SENT", error_message := none } : EmailAudit) ∈
      (execute_intent envA "u1" intentUpdA trA).2.audits ∧
    (({ user_id := "u1", to_email := "", subject := "Resignation Acceptance",
        body := "Dear Alice,\n\nWe acknowledge and accept your resignation.\n\nBest regards, HR",
        status := "SENT", error_message := none } : EmailAudit) ∈ trA.audits ∨
     ({ user_id := "u1", to_email := "", subject := "Resignation Acceptance",
        body := "Dear Alice,\n\nWe acknowledge and accept your resignation.\n\nBest regards, HR",
        status := "SENT", error_message := none } : EmailAudit).to_email = "") :=
  ⟨by decide,
   c10_cascade_audit_recipient_empty envA "u1" intentUpdA trA _ (by decide)⟩

end WorkPal
